import Mathlib

/-!
Verification development for a collaborative to-do application.

The application (React + a hosted Postgres backend) lets users create or
join shared rooms via invite codes and manage tasks that synchronize in
real time.  The definitions below are a shallow embedding of the client
handlers in TodoList / TaskItem / MainLayout / RoomSetup and of the SQL
schema (row defaults and row-level-security policies).  Machine state
(React component state, localStorage, the DOM attribute, the database
tables) is passed explicitly; fallible database calls are modelled by an
explicit error flag or by the result the backend returns.
-/

namespace Todo

/-- JS String.prototype.trim: strip whitespace from both ends. -/
def jsTrim (s : String) : String :=
  String.mk (((s.data.dropWhile Char.isWhitespace).reverse.dropWhile Char.isWhitespace).reverse)

/-- Case folding used to model the case-insensitive ilike match. -/
def jsToLower (s : String) : String :=
  String.mk (s.data.map Char.toLower)

/-- The task row type (lib/supabase.ts, table tasks in schema.sql).
Timestamps are modelled as natural numbers: the client only ever compares
them via getTime or via the ORDER BY clause of the backend. -/
structure Task where
  id : String
  room_id : String
  text : String
  created_by : String
  is_completed : Bool
  created_at : Nat
  deriving DecidableEq, Repr

/-- The room row type (lib/supabase.ts). -/
structure Room where
  id : String
  name : String
  invite_code : String
  created_by : String
  created_at : Nat
  deriving DecidableEq, Repr

/-- The two tabs of TodoList: activeTab is active or completed. -/
inductive Tab where
  | active
  | completed
  deriving DecidableEq, Repr

/-- isCompletedView := activeTab === completed (TodoList.fetchTasks). -/
def isCompletedView (tab : Tab) : Bool := tab == Tab.completed

/-- Comparator used by the realtime INSERT handler in the active tab and by
the backend ORDER BY created_at ascending. -/
def taskLE (a b : Task) : Prop := a.created_at ≤ b.created_at

/-- Comparator used by the realtime INSERT handler in the completed tab and
by the backend ORDER BY created_at descending. -/
def taskGE (a b : Task) : Prop := b.created_at ≤ a.created_at

instance : DecidableRel taskLE := fun a b => Nat.decLe a.created_at b.created_at

instance : DecidableRel taskGE := fun a b => Nat.decLe b.created_at a.created_at

instance : IsTotal Task taskLE := ⟨fun a b => Nat.le_total a.created_at b.created_at⟩

instance : IsTrans Task taskLE := ⟨fun _ _ _ h h2 => Nat.le_trans h h2⟩

instance : IsTotal Task taskGE := ⟨fun a b => Nat.le_total b.created_at a.created_at⟩

instance : IsTrans Task taskGE := ⟨fun _ _ _ h h2 => Nat.le_trans h2 h⟩

/-- Stable sort ascending by created_at (the JS Array.sort with comparator
a.created_at - b.created_at, and the backend ascending order). -/
def sortAsc (l : List Task) : List Task := List.insertionSort taskLE l

/-- Stable sort descending by created_at. -/
def sortDesc (l : List Task) : List Task := List.insertionSort taskGE l

/-- TodoList.fetchTasks: select tasks of the room with
is_completed = isCompletedView, ordered by created_at with
ascending = not isCompletedView. -/
def fetchTasks (db : List Task) (roomId : String) (tab : Tab) : List Task :=
  let isCompleted := isCompletedView tab
  let rows := db.filter (fun t => t.room_id == roomId && t.is_completed == isCompleted)
  if isCompleted then sortDesc rows else sortAsc rows

/-- A realtime payload on the tasks channel. -/
inductive RtEvent where
  | insert (new : Task)
  | update (new : Task)
  | delete (oldId : String)
  deriving DecidableEq, Repr

/-- The realtime subscription handler of TodoList (payload branch on
eventType), acting on the displayed task list for the current tab. -/
def handleRealtime (tab : Tab) (ev : RtEvent) (prev : List Task) : List Task :=
  match ev with
  | .insert newTask =>
      if tab == Tab.active && !newTask.is_completed then
        sortAsc (prev ++ [newTask])
      else if tab == Tab.completed && newTask.is_completed then
        sortDesc (newTask :: prev)
      else
        prev
  | .update updatedTask =>
      if tab == Tab.active then
        if updatedTask.is_completed then
          prev.filter (fun t => t.id != updatedTask.id)
        else
          prev.map (fun t => if t.id == updatedTask.id then updatedTask else t)
      else
        if !updatedTask.is_completed then
          prev.filter (fun t => t.id != updatedTask.id)
        else
          prev.map (fun t => if t.id == updatedTask.id then updatedTask else t)
  | .delete oldId =>
      prev.filter (fun t => t.id != oldId)

/-- The onUpdated callback TodoList passes to TaskItem: in-place
replacement by id. -/
def onUpdatedList (updatedTask : Task) (prev : List Task) : List Task :=
  prev.map (fun t => if t.id == updatedTask.id then updatedTask else t)

/-- The onDeleted callback TodoList passes to TaskItem: filter by id. -/
def onDeletedList (taskId : String) (prev : List Task) : List Task :=
  prev.filter (fun t => t.id != taskId)

/-- Tab-partition invariant: every displayed task has the completion flag
of the current tab. -/
def tabInv (tab : Tab) (ts : List Task) : Bool :=
  ts.all (fun t => t.is_completed == isCompletedView tab)

/-- Display-order invariant: ascending by created_at in the active tab,
descending in the completed tab. -/
def orderInv (tab : Tab) (ts : List Task) : Prop :=
  if tab == Tab.completed then List.Sorted taskGE ts else List.Sorted taskLE ts

/-! ## TaskItem handlers -/

/-- Outcome of TaskItem.handleToggleComplete: the value written to the
is_completed column, and the argument passed to onUpdated (none when the
database reported an error, in which case only an alert is shown). -/
structure ToggleOutcome where
  dbUpdateCompleted : Bool
  updatedTask : Option Task
  deriving DecidableEq, Repr

/-- TaskItem.handleToggleComplete: update is_completed to the negation of
the current value; on success call onUpdated with the flipped task. -/
def handleToggleComplete (task : Task) (dbError : Bool) : ToggleOutcome :=
  { dbUpdateCompleted := !task.is_completed
    updatedTask :=
      if dbError then none
      else some { task with is_completed := !task.is_completed } }

/-- The database row transformation of the toggle update statement
(update is_completed where id = task.id): a row is changed exactly when
its id matches, and only its is_completed column is written. -/
def toggleRow (task r : Task) : Task :=
  if r.id == task.id then { r with is_completed := !task.is_completed } else r

/-- Effect of a toggle on the local task list of TodoList: unchanged on
error, onUpdated in-place replacement on success. -/
def toggleListEffect (task : Task) (dbError : Bool) (ts : List Task) : List Task :=
  match (handleToggleComplete task dbError).updatedTask with
  | none => ts
  | some u => onUpdatedList u ts

/-- Outcome of TaskItem.handleUpdate: the value written to the text column
(none when no database call is made), the resulting isEditing flag and
edit field content, and the argument passed to onUpdated. -/
structure EditOutcome where
  dbUpdateText : Option String
  isEditing : Bool
  editValue : String
  updatedTask : Option Task
  deriving DecidableEq, Repr

/-- TaskItem.handleUpdate: when the trimmed edit value is empty or the raw
edit value equals the current text, exit edit mode and revert the field;
otherwise update the text column to the trimmed value. -/
def handleUpdate (task : Task) (editValue : String) (dbError : Bool) : EditOutcome :=
  if jsTrim editValue == "" || editValue == task.text then
    { dbUpdateText := none, isEditing := false, editValue := task.text, updatedTask := none }
  else if dbError then
    { dbUpdateText := some (jsTrim editValue), isEditing := true, editValue := editValue
      updatedTask := none }
  else
    { dbUpdateText := some (jsTrim editValue), isEditing := false, editValue := editValue
      updatedTask := some { task with text := jsTrim editValue } }

/-- The database row transformation of the edit update statement
(update text where id = task.id): only the text column is written. -/
def editRow (task : Task) (editValue : String) (r : Task) : Task :=
  if r.id == task.id then { r with text := jsTrim editValue } else r

/-- TaskItem render guard for the hover action group (Delete, and Edit):
shown only outside edit mode and only to the creator of the task. -/
def showTaskActions (t : Task) (currentUserId : String) (isEditing : Bool) : Bool :=
  !isEditing && (t.created_by == currentUserId)

/-- TaskItem render guard for the Edit button: additionally requires the
task not to be completed. -/
def showEditAction (t : Task) (currentUserId : String) (isEditing : Bool) : Bool :=
  showTaskActions t currentUserId isEditing && !t.is_completed

/-! ## Adding a task (TodoList.handleAddTask, tasks table defaults) -/

/-- The object handed to the tasks insert call. -/
structure TaskInsert where
  room_id : String
  text : String
  created_by : String
  deriving DecidableEq, Repr

/-- Outcome of TodoList.handleAddTask: the issued insert (none when the
trimmed input is empty) and the resulting content of the input field. -/
structure AddOutcome where
  insertRow : Option TaskInsert
  newTaskText : String
  deriving DecidableEq, Repr

/-- TodoList.handleAddTask: return early on empty trimmed input; otherwise
insert the trimmed text with the room id and the user id, and clear the
input field only when the insert succeeded. -/
def handleAddTask (roomId userId newTaskText : String) (dbError : Bool) : AddOutcome :=
  if jsTrim newTaskText == "" then
    { insertRow := none, newTaskText := newTaskText }
  else
    { insertRow := some { room_id := roomId, text := jsTrim newTaskText, created_by := userId }
      newTaskText := if dbError then newTaskText else "" }

/-- Materialization of an insert by the tasks table of schema.sql: id is
generated, is_completed defaults to FALSE, created_at defaults to NOW. -/
def materializeInsert (row : TaskInsert) (newId : String) (now : Nat) : Task :=
  { id := newId, room_id := row.room_id, text := row.text, created_by := row.created_by
    is_completed := false, created_at := now }

/-! ## Pull to refresh (TodoList touch handlers) -/

/-- The pull-to-refresh related state of TodoList.  Coordinates are exact
rationals standing for the JS numbers involved. -/
structure PullState where
  touchStart : Option ℚ
  isPulling : Bool
  pullProgress : ℚ
  isRefreshing : Bool
  scrollTop : ℚ
  deriving DecidableEq, Repr

/-- TodoList.handleTouchStart: record the touch origin only when the list
is scrolled to the top. -/
def handleTouchStart (s : PullState) (clientY : ℚ) : PullState :=
  if s.scrollTop = 0 then { s with touchStart := some clientY } else s

/-- TodoList.handleTouchMove: the guard !touchStartRef.current ||
isRefreshing returns early both when no touch origin is recorded and when
the recorded origin clientY is 0 (a falsy JS number); otherwise a downward
pull at the top sets the pulling flag and the progress
min(distance * 0.4, 80). -/
def handleTouchMove (s : PullState) (clientY : ℚ) : PullState :=
  match s.touchStart with
  | none => s
  | some y0 =>
      if y0 = 0 then s
      else if s.isRefreshing then s
      else
        let distance := clientY - y0
        if 0 < distance ∧ s.scrollTop = 0 then
          { s with isPulling := true, pullProgress := min (distance * (2 / 5)) 80 }
        else s

/-- TodoList.handleTouchEnd: the guard !touchStartRef.current returns
early both when no touch origin is recorded and when the recorded origin
is 0 (falsy); otherwise trigger fetchTasks(true) exactly when the progress
exceeds 60, then clear the gesture state.  The boolean of the pair records
whether the refresh was triggered. -/
def handleTouchEnd (s : PullState) : PullState × Bool :=
  match s.touchStart with
  | none => (s, false)
  | some y0 =>
      if y0 = 0 then (s, false)
      else
        ({ s with touchStart := none, isPulling := false, pullProgress := 0 },
          decide (60 < s.pullProgress))

/-- Gesture-idle invariant: with a falsy recorded touch origin (absent, or
the falsy coordinate 0), the pulling flag is off and the progress is 0
(true initially; during a gesture with origin 0 the handlers never set
either). -/
def pullIdleInv (s : PullState) : Prop :=
  (s.touchStart = none ∨ s.touchStart = some 0) →
    s.isPulling = false ∧ s.pullProgress = 0

/-! ## Joining a room -/

/-- Membership rows of the room_users junction table. -/
abbrev MemberTable := List (String × String)

/-- Resolution of the join input by MainLayout.handleJoinRoom: select id
from rooms where invite_code ilike the trimmed input, with .single()
succeeding exactly when one row matches.  The ilike match of a pattern
without wildcard characters is case-insensitive equality. -/
def resolveByInvite (rooms : List Room) (inputValue : String) : Option Room :=
  match rooms.filter (fun r => jsToLower r.invite_code == jsToLower (jsTrim inputValue)) with
  | [r] => some r
  | _ => none

/-- Insert into room_users with the primary key (room_id, user_id): a
duplicate membership yields the unique-violation error 23505 (the boolean)
and leaves the table unchanged. -/
def insertRoomUser (members : MemberTable) (roomId userId : String) :
    MemberTable × Bool :=
  if (roomId, userId) ∈ members then (members, true)
  else (members ++ [(roomId, userId)], false)

/-- Result state of MainLayout.handleJoinRoom. -/
structure JoinResult where
  members : MemberTable
  selectedRoomId : Option String
  inputValue : String
  showJoin : Bool
  errorMsg : String
  deriving DecidableEq, Repr

/-- MainLayout.handleJoinRoom: resolve the room by invite code, insert the
membership row ignoring the duplicate-key error 23505, clear and close the
join form and select the room; throw Invalid Invite Code when the lookup
fails. -/
def mainHandleJoinRoom (rooms : List Room) (members : MemberTable)
    (userId inputValue : String) (selectedRoomId : Option String) (errorMsg0 : String) :
    JoinResult :=
  if jsTrim inputValue == "" then
    { members := members, selectedRoomId := selectedRoomId, inputValue := inputValue
      showJoin := true, errorMsg := errorMsg0 }
  else
    match resolveByInvite rooms inputValue with
    | none =>
        { members := members, selectedRoomId := selectedRoomId, inputValue := inputValue
          showJoin := true, errorMsg := "Invalid Invite Code." }
    | some r =>
        let ins := insertRoomUser members r.id userId
        { members := ins.1, selectedRoomId := some r.id, inputValue := ""
          showJoin := false, errorMsg := "" }

/-- RoomSetup.handleJoinRoom (a second join handler present in the
repository, not referenced by App): resolve the room by exact id equality
on the trimmed input and hand the room id to onJoin; no membership row is
inserted. -/
def roomSetupJoinRoom (rooms : List Room) (nameValue roomIdInput : String) :
    Except String String :=
  if jsTrim nameValue == "" then Except.error "Please enter your name."
  else if jsTrim roomIdInput == "" then Except.error "Please enter a Room ID."
  else
    match rooms.filter (fun r => r.id == jsTrim roomIdInput) with
    | [r] => Except.ok r.id
    | _ => Except.error "Room not found or invalid Room ID."

/-! ## Theme toggling (MainLayout.toggleTheme) -/

/-- The theme state variable of MainLayout. -/
inductive Theme where
  | dark
  | light
  deriving DecidableEq, Repr

/-- The string stored for each theme. -/
def Theme.asString : Theme → String
  | .dark => "dark"
  | .light => "light"

/-- The other theme. -/
def otherTheme (t : Theme) : Theme :=
  if t = Theme.dark then Theme.light else Theme.dark

/-- The theme-visible state: the React state variable, the localStorage
theme entry, and the documentElement data-theme attribute (the latter two
are absent before any toggle or saved theme). -/
structure ThemeState where
  theme : Theme
  storedTheme : Option String
  dataThemeAttr : Option String
  deriving DecidableEq, Repr

/-- MainLayout.toggleTheme: flip the theme and write the new theme string
to localStorage and to the data-theme attribute. -/
def toggleTheme (s : ThemeState) : ThemeState :=
  let newTheme := if s.theme = Theme.dark then Theme.light else Theme.dark
  { theme := newTheme
    storedTheme := some newTheme.asString
    dataThemeAttr := some newTheme.asString }

/-! ## Row-level security for task deletion (schema.sql) -/

/-- The DELETE policy on tasks: USING auth.uid() = created_by. -/
def canDeleteRow (uid : String) (t : Task) : Bool :=
  uid == t.created_by

/-- Effect on the tasks table of delete from tasks where id = taskId
issued by user uid under row-level security: a row is removed exactly when
it matches the filter and the policy admits it. -/
def rlsDelete (uid taskId : String) (db : List Task) : List Task :=
  db.filter (fun t => !((t.id == taskId) && canDeleteRow uid t))

/-- The rooms policy Creator can manage their rooms (schema.sql), as it
applies to DELETE on rooms: USING auth.uid() = created_by. -/
def canDeleteRoomRow (uid : String) (r : Room) : Bool :=
  uid == r.created_by

/-- The room rows an authenticated delete from rooms where id = roomId
removes: those matching the filter that the rooms policy admits. -/
def roomsRemoved (uid roomId : String) (rooms : List Room) : List Room :=
  rooms.filter (fun r => (r.id == roomId) && canDeleteRoomRow uid r)

/-- Effect of delete from rooms where id = roomId issued by uid
(MainLayout.handleDeleteRoom, reached from the Delete List button of the
TodoList settings) under row-level security, together with the ON DELETE
CASCADE on tasks.room_id: the admitted room rows are removed and every
task belonging to a removed room is removed with them; the cascade is
referential integrity and is not subject to the tasks DELETE policy. -/
def rlsDeleteRoom (uid roomId : String) (rooms : List Room) (tasksDb : List Task) :
    List Room × List Task :=
  (rooms.filter (fun r => !((r.id == roomId) && canDeleteRoomRow uid r)),
    tasksDb.filter (fun t => !((roomsRemoved uid roomId rooms).any (fun r => r.id == t.room_id))))

example : fetchTasks [⟨"t1", "r1", "a", "u1", false, 5⟩, ⟨"t2", "r1", "b", "u1", false, 3⟩]
    "r1" Tab.active = [⟨"t2", "r1", "b", "u1", false, 3⟩, ⟨"t1", "r1", "a", "u1", false, 5⟩] := by
  decide

example : jsTrim "a " = "a" := by decide

example : jsToLower "AB12" = "ab12" := by decide

/-! ## Helper lemmas on the displayed list -/

lemma tabInv_iff {tab : Tab} {ts : List Task} :
    tabInv tab ts = true ↔ ∀ t ∈ ts, t.is_completed = isCompletedView tab := by
  simp [tabInv, List.all_eq_true]

lemma mem_fetchTasks {t : Task} {db : List Task} {roomId : String} {tab : Tab}
    (h : t ∈ fetchTasks db roomId tab) :
    t.room_id = roomId ∧ t.is_completed = isCompletedView tab := by
  simp only [fetchTasks, sortAsc, sortDesc] at h
  split at h <;>
  · rw [List.mem_insertionSort] at h
    have h2 := List.mem_filter.1 h
    simpa using h2.2

lemma mem_handleRealtime {t : Task} {tab : Tab} {ev : RtEvent} {ts : List Task}
    (ht : t ∈ handleRealtime tab ev ts) :
    t ∈ ts ∨ t.is_completed = isCompletedView tab := by
  cases ev with
  | insert u =>
      simp only [handleRealtime, sortAsc, sortDesc] at ht
      split at ht
      · rename_i hcond
        rw [List.mem_insertionSort, List.mem_append, List.mem_singleton] at ht
        rcases ht with h1 | rfl
        · exact Or.inl h1
        · right
          rw [Bool.and_eq_true] at hcond
          obtain ⟨h2, h3⟩ := hcond
          rw [beq_iff_eq] at h2
          subst h2
          simpa [isCompletedView] using h3
      · split at ht
        · rename_i hcond
          rw [List.mem_insertionSort, List.mem_cons] at ht
          rcases ht with rfl | h1
          · right
            rw [Bool.and_eq_true] at hcond
            obtain ⟨h2, h3⟩ := hcond
            rw [beq_iff_eq] at h2
            subst h2
            simpa [isCompletedView] using h3
          · exact Or.inl h1
        · exact Or.inl ht
  | update u =>
      cases tab with
      | active =>
          by_cases hu : u.is_completed = true
          · rw [show handleRealtime Tab.active (RtEvent.update u) ts
                  = ts.filter (fun t => t.id != u.id) from by
                simp [handleRealtime, hu, beq_iff_eq]] at ht
            exact Or.inl (List.mem_filter.1 ht).1
          · rw [show handleRealtime Tab.active (RtEvent.update u) ts
                  = ts.map (fun t => if t.id == u.id then u else t) from by
                simp [handleRealtime, hu, beq_iff_eq]] at ht
            rw [List.mem_map] at ht
            obtain ⟨a, ha, hEq⟩ := ht
            by_cases hid : (a.id == u.id) = true
            · rw [if_pos hid] at hEq
              subst hEq
              right
              simp only [isCompletedView]
              simpa using Bool.eq_false_iff.mpr hu
            · rw [if_neg hid] at hEq
              subst hEq
              exact Or.inl ha
      | completed =>
          by_cases hu : u.is_completed = true
          · rw [show handleRealtime Tab.completed (RtEvent.update u) ts
                  = ts.map (fun t => if t.id == u.id then u else t) from by
                simp [handleRealtime, hu, beq_iff_eq]] at ht
            rw [List.mem_map] at ht
            obtain ⟨a, ha, hEq⟩ := ht
            by_cases hid : (a.id == u.id) = true
            · rw [if_pos hid] at hEq
              subst hEq
              right
              simpa [isCompletedView] using hu
            · rw [if_neg hid] at hEq
              subst hEq
              exact Or.inl ha
          · rw [show handleRealtime Tab.completed (RtEvent.update u) ts
                  = ts.filter (fun t => t.id != u.id) from by
                simp [handleRealtime, hu, beq_iff_eq]] at ht
            exact Or.inl (List.mem_filter.1 ht).1
  | delete i =>
      exact Or.inl (List.mem_filter.1 ht).1

/-- Claim C1 does not hold as stated: in the active tab, toggling a task
through TaskItem.handleToggleComplete fires onUpdated with the flipped
task, and the onUpdated callback replaces it in place instead of removing
it, so a completed task is displayed while activeTab = active. -/
def c1Task : Task := ⟨"t1", "r1", "milk", "u1", false, 5⟩

/-- The task c1Task after a successful completion toggle. -/
def c1Toggled : Task := ⟨"t1", "r1", "milk", "u1", true, 5⟩

/-- Claim C1, counterexample: starting from an active-tab list satisfying
the tab-partition invariant, the onUpdated callback fired by a successful
handleToggleComplete produces a list displaying a completed task in the
active tab, so the invariant is not preserved by the local onUpdated
transition. -/
theorem tab_partition_counterexample :
    tabInv Tab.active [c1Task] = true ∧
    (handleToggleComplete c1Task false).updatedTask = some c1Toggled ∧
    tabInv Tab.active (onUpdatedList c1Toggled [c1Task]) = false := by
  decide

/-- Claim C1 (amended): the tab-partition invariant (every task shown in
the active tab has is_completed = false, every task shown in the completed
tab has is_completed = true) holds after the initial fetchTasks, is
preserved by every realtime INSERT/UPDATE/DELETE payload and by the local
onDeleted callback, and is preserved by the local onUpdated callback
exactly under the proviso that the updated task's completion flag matches
the current tab; the completion toggle violates that proviso, so after its
optimistic onUpdated the flipped task remains displayed in the opposite
tab until the realtime UPDATE payload removes it. -/
theorem tab_partition_amended :
    (∀ (db : List Task) (roomId : String) (tab : Tab),
      tabInv tab (fetchTasks db roomId tab) = true) ∧
    (∀ (tab : Tab) (ev : RtEvent) (ts : List Task),
      tabInv tab ts = true → tabInv tab (handleRealtime tab ev ts) = true) ∧
    (∀ (tab : Tab) (taskId : String) (ts : List Task),
      tabInv tab ts = true → tabInv tab (onDeletedList taskId ts) = true) ∧
    (∀ (tab : Tab) (u : Task) (ts : List Task),
      tabInv tab ts = true → u.is_completed = isCompletedView tab →
      tabInv tab (onUpdatedList u ts) = true) := by
  refine ⟨?_, ?_, ?_, ?_⟩
  · intro db roomId tab
    rw [tabInv_iff]
    intro t ht
    exact (mem_fetchTasks ht).2
  · intro tab ev ts h
    rw [tabInv_iff] at h ⊢
    intro t ht
    rcases mem_handleRealtime ht with h1 | h1
    · exact h t h1
    · exact h1
  · intro tab taskId ts h
    rw [tabInv_iff] at h ⊢
    intro t ht
    exact h t (List.mem_filter.1 ht).1
  · intro tab u ts h hu
    rw [tabInv_iff] at h ⊢
    intro t ht
    rw [onUpdatedList, List.mem_map] at ht
    obtain ⟨a, ha, hEq⟩ := ht
    by_cases hid : (a.id == u.id) = true
    · rw [if_pos hid] at hEq
      subst hEq
      exact hu
    · rw [if_neg hid] at hEq
      subst hEq
      exact h a ha

/-- Claim C1 (amended), witness at concrete inputs. -/
theorem tab_partition_amended_witness :
    tabInv Tab.active [c1Task] = true ∧
    tabInv Tab.active (handleRealtime Tab.active (RtEvent.insert ⟨"t2", "r1", "eggs", "u1", false, 9⟩) [c1Task]) = true :=
  ⟨by decide,
    tab_partition_amended.2.1 Tab.active (RtEvent.insert ⟨"t2", "r1", "eggs", "u1", false, 9⟩)
      [c1Task] (by decide)⟩

/-! ## Sortedness helper lemmas -/

lemma sorted_sortAsc (l : List Task) : List.Sorted taskLE (sortAsc l) :=
  List.sorted_insertionSort taskLE l

lemma sorted_sortDesc (l : List Task) : List.Sorted taskGE (sortDesc l) :=
  List.sorted_insertionSort taskGE l

lemma sorted_filter {R : Task → Task → Prop} {ts : List Task} (p : Task → Bool)
    (hs : List.Pairwise R ts) : List.Pairwise R (ts.filter p) :=
  List.Pairwise.sublist (List.filter_sublist ts) hs

lemma pairwise_replace {R : Task → Task → Prop}
    (hR : ∀ a b a2 b2 : Task, a.created_at = a2.created_at → b.created_at = b2.created_at →
      R a b → R a2 b2)
    {u : Task} {ts : List Task} (hs : List.Pairwise R ts)
    (hca : ∀ t ∈ ts, t.id = u.id → t.created_at = u.created_at) :
    List.Pairwise R (onUpdatedList u ts) := by
  rw [onUpdatedList, List.pairwise_map]
  refine hs.imp_of_mem ?_
  intro a b ha hb hab
  refine hR a b _ _ ?_ ?_ hab
  · by_cases hid : (a.id == u.id) = true
    · rw [if_pos hid]
      exact hca a ha (beq_iff_eq.1 hid)
    · rw [if_neg hid]
  · by_cases hid : (b.id == u.id) = true
    · rw [if_pos hid]
      exact hca b hb (beq_iff_eq.1 hid)
    · rw [if_neg hid]

lemma taskLE_congr : ∀ a b a2 b2 : Task, a.created_at = a2.created_at →
    b.created_at = b2.created_at → taskLE a b → taskLE a2 b2 := by
  intro a b a2 b2 h1 h2 hab
  unfold taskLE at *
  rw [← h1, ← h2]
  exact hab

lemma taskGE_congr : ∀ a b a2 b2 : Task, a.created_at = a2.created_at →
    b.created_at = b2.created_at → taskGE a b → taskGE a2 b2 := by
  intro a b a2 b2 h1 h2 hab
  unfold taskGE at *
  rw [← h1, ← h2]
  exact hab

/-- Claim C3: the active tab is displayed ascending by created_at and the
completed tab descending; this holds after the initial fetch (ordered by
created_at with ascending = not completed-view) and is preserved by every
realtime INSERT (re-sort after appending), UPDATE (in-place replacement by
id, the replaced rows carrying the same created_at as the payload, which
holds of every update the application issues since only text and
is_completed are ever written), and DELETE (filter by id). -/
theorem display_order_invariant :
    (∀ (db : List Task) (roomId : String) (tab : Tab),
      orderInv tab (fetchTasks db roomId tab)) ∧
    (∀ (tab : Tab) (u : Task) (ts : List Task),
      orderInv tab ts → orderInv tab (handleRealtime tab (RtEvent.insert u) ts)) ∧
    (∀ (tab : Tab) (u : Task) (ts : List Task),
      orderInv tab ts → (∀ t ∈ ts, t.id = u.id → t.created_at = u.created_at) →
      orderInv tab (handleRealtime tab (RtEvent.update u) ts)) ∧
    (∀ (tab : Tab) (oldId : String) (ts : List Task),
      orderInv tab ts → orderInv tab (handleRealtime tab (RtEvent.delete oldId) ts)) := by
  refine ⟨?_, ?_, ?_, ?_⟩
  · intro db roomId tab
    cases tab <;>
      simp [orderInv, fetchTasks, isCompletedView, sorted_sortAsc, sorted_sortDesc]
  · intro tab u ts hs
    cases tab <;> by_cases hu : u.is_completed = true <;>
      simp_all [orderInv, handleRealtime, isCompletedView, beq_iff_eq,
        sorted_sortAsc, sorted_sortDesc]
  · intro tab u ts hs hca
    cases tab with
    | active =>
        by_cases hu : u.is_completed = true
        · rw [show handleRealtime Tab.active (RtEvent.update u) ts
                = ts.filter (fun t => t.id != u.id) from by
              simp [handleRealtime, hu, beq_iff_eq]]
          simp only [orderInv, isCompletedView] at hs ⊢
          simpa using sorted_filter _ (by simpa using hs)
        · rw [show handleRealtime Tab.active (RtEvent.update u) ts
                = onUpdatedList u ts from by
              simp [handleRealtime, hu, beq_iff_eq, onUpdatedList]]
          simp only [orderInv, isCompletedView] at hs ⊢
          simpa using pairwise_replace taskLE_congr (by simpa using hs) hca
    | completed =>
        by_cases hu : u.is_completed = true
        · rw [show handleRealtime Tab.completed (RtEvent.update u) ts
                = onUpdatedList u ts from by
              simp [handleRealtime, hu, beq_iff_eq, onUpdatedList]]
          simp only [orderInv, isCompletedView] at hs ⊢
          simpa using pairwise_replace taskGE_congr (by simpa using hs) hca
        · rw [show handleRealtime Tab.completed (RtEvent.update u) ts
                = ts.filter (fun t => t.id != u.id) from by
              simp [handleRealtime, hu, beq_iff_eq]]
          simp only [orderInv, isCompletedView] at hs ⊢
          simpa using sorted_filter _ (by simpa using hs)
  · intro tab oldId ts hs
    cases tab <;>
    · simp only [orderInv, isCompletedView, handleRealtime] at hs ⊢
      simpa using sorted_filter _ (by simpa using hs)

/-- Claim C3, witness at concrete inputs. -/
theorem display_order_invariant_witness :
    orderInv Tab.active [c1Task] ∧
    orderInv Tab.active
      (handleRealtime Tab.active (RtEvent.update ⟨"t1", "r1", "oat milk", "u1", false, 5⟩) [c1Task]) :=
  ⟨by simp [orderInv, c1Task],
    display_order_invariant.2.2.1 Tab.active ⟨"t1", "r1", "oat milk", "u1", false, 5⟩ [c1Task]
      (by simp [orderInv, c1Task])
      (by intro t ht _; simp [c1Task] at ht; simp [ht])⟩

/-! ## Adding, editing and completing tasks -/

/-- Claim C4: an insert is issued iff the submitted text is non-empty
after trimming; the inserted row carries the trimmed text, the room id and
the user id, and materializes with is_completed = false (schema default);
success clears the input field, failure leaves the typed text unchanged. -/
theorem add_task_spec (roomId userId txt : String) (err : Bool) :
    ((handleAddTask roomId userId txt err).insertRow.isSome = true ↔ jsTrim txt ≠ "") ∧
    (∀ row, (handleAddTask roomId userId txt err).insertRow = some row →
      row.room_id = roomId ∧ row.text = jsTrim txt ∧ row.created_by = userId ∧
      ∀ newId now, (materializeInsert row newId now).is_completed = false) ∧
    (jsTrim txt ≠ "" → err = false → (handleAddTask roomId userId txt err).newTaskText = "") ∧
    (err = true → (handleAddTask roomId userId txt err).newTaskText = txt) := by
  by_cases h : jsTrim txt = ""
  · simp [handleAddTask, h, materializeInsert]
  · cases err <;> simp_all [handleAddTask, h, materializeInsert]

/-- Claim C4, witness at concrete inputs. -/
theorem add_task_spec_witness :
    jsTrim " milk " ≠ "" ∧
    (handleAddTask "r1" "u1" " milk " false).newTaskText = "" ∧
    (handleAddTask "r1" "u1" " milk " false).insertRow =
      some { room_id := "r1", text := "milk", created_by := "u1" } :=
  ⟨by decide, (add_task_spec "r1" "u1" " milk " false).2.2.1 (by decide) rfl, by decide⟩

/-- The task used in the claim C5 counterexample: its text is the one
character a. -/
def c5Task : Task := ⟨"t5", "r5", "a", "u5", false, 3⟩

/-- Claim C5, counterexample: with the edit field holding the current text
followed by a space, the trimmed edited value equals the current text, yet
handleUpdate issues a database update (the code compares the untrimmed
edit value against the current text). -/
theorem edit_task_counterexample :
    jsTrim "a " = c5Task.text ∧
    (handleUpdate c5Task "a " false).dbUpdateText = some "a" := by
  decide

/-- Claim C5 (amended): handleUpdate issues a database update exactly when
the trimmed edited value is non-empty and the raw edited value differs
from the current text (so a value differing only by surrounding
whitespace still issues an update, writing the unchanged trimmed text);
every issued update writes only the text column, set to the trimmed
value, leaving id, room_id, created_by, is_completed and created_at
unchanged; when the trimmed value is empty or the raw value equals the
current text, no database call is made and the edit field reverts to the
original text. -/
theorem edit_task_amended (task : Task) (v : String) (err : Bool) :
    ((handleUpdate task v err).dbUpdateText ≠ none ↔ (jsTrim v ≠ "" ∧ v ≠ task.text)) ∧
    (∀ w, (handleUpdate task v err).dbUpdateText = some w → w = jsTrim v) ∧
    (jsTrim v = "" ∨ v = task.text →
      (handleUpdate task v err).dbUpdateText = none ∧
      (handleUpdate task v err).editValue = task.text ∧
      (handleUpdate task v err).isEditing = false) ∧
    (∀ r : Task, r.id = task.id →
      (editRow task v r).text = jsTrim v ∧ (editRow task v r).id = r.id ∧
      (editRow task v r).room_id = r.room_id ∧ (editRow task v r).created_by = r.created_by ∧
      (editRow task v r).is_completed = r.is_completed ∧
      (editRow task v r).created_at = r.created_at) ∧
    (∀ r : Task, r.id ≠ task.id → editRow task v r = r) ∧
    (jsTrim v ≠ "" → v ≠ task.text →
      (handleUpdate task v false).updatedTask = some { task with text := jsTrim v }) := by
  refine ⟨?_, ?_, ?_, ?_, ?_, ?_⟩
  · by_cases h1 : jsTrim v = "" <;> by_cases h2 : v = task.text <;>
      cases err <;> simp [handleUpdate, h1, h2]
  · intro w hw
    by_cases h1 : jsTrim v = "" <;> by_cases h2 : v = task.text <;>
      cases err <;> simp_all [handleUpdate, h1, h2]
  · intro h
    rcases h with h | h <;> simp [handleUpdate, h]
  · intro r hr
    simp [editRow, hr]
  · intro r hr
    simp [editRow, hr]
  · intro h1 h2
    simp [handleUpdate, h1, h2]

/-- Claim C5 (amended), witness at concrete inputs. -/
theorem edit_task_amended_witness :
    jsTrim "ab " ≠ "" ∧ "ab " ≠ c5Task.text ∧
    (handleUpdate c5Task "ab " false).updatedTask =
      some { c5Task with text := "ab" } :=
  ⟨by decide, by decide,
    (edit_task_amended c5Task "ab " false).2.2.2.2.2 (by decide) (by decide)⟩

/-- Claim C6: handleToggleComplete writes the negation of the current
is_completed and no other column (the update transforms each matching
database row by flipping only is_completed); on a database error the local
task list is unchanged; on success onUpdated receives the task with
is_completed flipped and every other field identical. -/
theorem toggle_complete_spec (task r : Task) :
    ((toggleRow task r).id = r.id ∧ (toggleRow task r).room_id = r.room_id ∧
      (toggleRow task r).text = r.text ∧ (toggleRow task r).created_by = r.created_by ∧
      (toggleRow task r).created_at = r.created_at) ∧
    (r.id = task.id → (toggleRow task r).is_completed = !task.is_completed) ∧
    (r.id ≠ task.id → toggleRow task r = r) ∧
    (handleToggleComplete task true).updatedTask = none ∧
    (∀ ts, toggleListEffect task true ts = ts) ∧
    ((handleToggleComplete task false).updatedTask =
      some { task with is_completed := !task.is_completed }) := by
  refine ⟨?_, ?_, ?_, ?_, ?_, ?_⟩
  · by_cases hid : r.id = task.id <;> simp [toggleRow, hid]
  · intro h
    simp [toggleRow, h]
  · intro h
    simp [toggleRow, h]
  · simp [handleToggleComplete]
  · intro ts
    simp [toggleListEffect, handleToggleComplete]
  · simp [handleToggleComplete]

/-- The task used in the claim C6 witness. -/
def c6Task : Task := ⟨"t6", "r6", "walk dog", "u6", false, 7⟩

/-- Claim C6, witness at concrete inputs. -/
theorem toggle_complete_spec_witness :
    c6Task.id = c6Task.id ∧
    (toggleRow c6Task c6Task).is_completed = !c6Task.is_completed ∧
    (handleToggleComplete c6Task false).updatedTask =
      some { c6Task with is_completed := !c6Task.is_completed } :=
  ⟨rfl, (toggle_complete_spec c6Task c6Task).2.1 rfl,
    (toggle_complete_spec c6Task c6Task).2.2.2.2.2⟩

/-! ## Pull-to-refresh and the delete policy -/

/-- The gesture state of the claim C7 counterexample: a touch recorded at
clientY = 0 (the top edge of the viewport), which the JS falsy guard on
touchStartRef.current treats as no recorded gesture. -/
def c7Edge : PullState :=
  { touchStart := some 0, isPulling := false, pullProgress := 0
    isRefreshing := false, scrollTop := 0 }

/-- Claim C7, counterexample: for a pull gesture started at the top whose
recorded origin clientY is 0, a 200 pixel downward pull displays no
progress (the claimed value min(0.4 * 200, 80) = 80 is never shown) and
releasing triggers no refresh although the raw distance 200 exceeds 150:
the falsy guard !touchStartRef.current returns early at the origin 0. -/
theorem pull_to_refresh_counterexample :
    (150:ℚ) < 200 - 0 ∧
    min (((200:ℚ) - 0) * (2 / 5)) 80 = 80 ∧
    (handleTouchMove c7Edge 200).pullProgress = 0 ∧
    (handleTouchMove c7Edge 200).isPulling = false ∧
    (handleTouchEnd (handleTouchMove c7Edge 200)).2 = false := by
  have hmv : handleTouchMove c7Edge 200 = c7Edge := by
    simp [handleTouchMove, c7Edge]
  have hend : handleTouchEnd c7Edge = (c7Edge, false) := by
    simp [handleTouchEnd, c7Edge]
  refine ⟨by norm_num, by norm_num [min_self], ?_, ?_, ?_⟩
  · rw [hmv]
    rfl
  · rw [hmv]
    rfl
  · rw [hmv, hend]

/-- Claim C7 (amended): during a pull gesture started at the top whose
recorded origin clientY is non-zero, the displayed progress is
min(0.4 times the pull distance, 80), and releasing triggers a refresh
exactly when the progress exceeds 60, equivalently when the raw distance
exceeds 150, after which the pulling flag and progress are reset to false
and 0; when the recorded origin is exactly 0 the JS falsy guard
!touchStartRef.current makes both handlers return early, so no progress is
shown and no refresh fires regardless of distance, but the flag and
progress still read false and 0 after release by the gesture-idle
invariant, which the handlers preserve (touch start preserves it from any
non-zero origin and from every state with clear flags). -/
theorem pull_to_refresh_spec :
    (∀ (s : PullState) (y0 y : ℚ), s.touchStart = some y0 → y0 ≠ 0 →
      s.isRefreshing = false → s.scrollTop = 0 → 0 < y - y0 →
      (handleTouchMove s y).pullProgress = min ((y - y0) * (2 / 5)) 80 ∧
      (handleTouchMove s y).isPulling = true ∧
      ((handleTouchEnd (handleTouchMove s y)).2 = true ↔ 150 < y - y0) ∧
      (handleTouchEnd (handleTouchMove s y)).1.isPulling = false ∧
      (handleTouchEnd (handleTouchMove s y)).1.pullProgress = 0 ∧
      (handleTouchEnd (handleTouchMove s y)).1.touchStart = none) ∧
    (∀ (s : PullState) (y0 : ℚ), s.touchStart = some y0 → y0 ≠ 0 →
      ((handleTouchEnd s).2 = true ↔ 60 < s.pullProgress)) ∧
    (∀ s : PullState, pullIdleInv s →
      (handleTouchEnd s).1.isPulling = false ∧ (handleTouchEnd s).1.pullProgress = 0) ∧
    (∀ (s : PullState) (y : ℚ), pullIdleInv s →
      pullIdleInv (handleTouchMove s y) ∧
      pullIdleInv (handleTouchEnd s).1 ∧
      (y ≠ 0 → pullIdleInv (handleTouchStart s y)) ∧
      (s.isPulling = false ∧ s.pullProgress = 0 → pullIdleInv (handleTouchStart s y))) := by
  refine ⟨?_, ?_, ?_, ?_⟩
  · intro s y0 y h1 hy0 h2 h3 h4
    obtain ⟨ts0, ip, pp, ir, st⟩ := s
    have h1b : ts0 = some y0 := h1
    have h2b : ir = false := h2
    have h3b : st = 0 := h3
    subst h1b
    subst h2b
    subst h3b
    have hmv : handleTouchMove ⟨some y0, ip, pp, false, 0⟩ y
        = ⟨some y0, true, min ((y - y0) * (2 / 5)) 80, false, 0⟩ := by
      simp [handleTouchMove, hy0, h4]
    rw [hmv]
    have hend : handleTouchEnd ⟨some y0, true, min ((y - y0) * (2 / 5)) 80, false, 0⟩
        = (⟨none, false, 0, false, 0⟩, decide (60 < min ((y - y0) * (2 / 5)) 80)) := by
      simp [handleTouchEnd, hy0]
    rw [hend]
    refine ⟨rfl, rfl, ?_, rfl, rfl, rfl⟩
    rw [decide_eq_true_eq]
    constructor
    · intro h
      have h5 : 60 < (y - y0) * (2 / 5) := lt_of_lt_of_le h (min_le_left _ _)
      linarith
    · intro h
      exact lt_min (by linarith) (by norm_num)
  · intro s y0 h1 hy0
    obtain ⟨ts0, ip, pp, ir, st⟩ := s
    have h1b : ts0 = some y0 := h1
    subst h1b
    simp [handleTouchEnd, hy0]
  · intro s hinv
    obtain ⟨ts0, ip, pp, ir, st⟩ := s
    cases ts0 with
    | none => exact hinv (Or.inl rfl)
    | some y0 =>
        by_cases hy : y0 = 0
        · subst hy
          rw [show handleTouchEnd ⟨some (0:ℚ), ip, pp, ir, st⟩
              = (⟨some 0, ip, pp, ir, st⟩, false) from by simp [handleTouchEnd]]
          exact hinv (Or.inr rfl)
        · rw [show handleTouchEnd ⟨some y0, ip, pp, ir, st⟩
              = (⟨none, false, 0, ir, st⟩, decide (60 < pp)) from by simp [handleTouchEnd, hy]]
          exact ⟨rfl, rfl⟩
  · intro s y hinv
    obtain ⟨ts0, ip, pp, ir, st⟩ := s
    refine ⟨?_, ?_, ?_, ?_⟩
    · cases ts0 with
      | none => exact hinv
      | some y0 =>
          by_cases hy : y0 = 0
          · subst hy
            rw [show handleTouchMove ⟨some (0:ℚ), ip, pp, ir, st⟩ y
                = ⟨some 0, ip, pp, ir, st⟩ from by simp [handleTouchMove]]
            exact hinv
          · by_cases hir : ir = true
            · rw [show handleTouchMove ⟨some y0, ip, pp, ir, st⟩ y
                  = ⟨some y0, ip, pp, ir, st⟩ from by simp [handleTouchMove, hy, hir]]
              exact hinv
            · by_cases hcond : 0 < y - y0 ∧ st = 0
              · obtain ⟨hc1, hc2⟩ := hcond
                subst hc2
                rw [show handleTouchMove ⟨some y0, ip, pp, ir, 0⟩ y
                    = ⟨some y0, true, min ((y - y0) * (2 / 5)) 80, ir, 0⟩ from by
                  simp [handleTouchMove, hy, hir, hc1]]
                intro hf
                rcases hf with hf | hf
                · exact absurd hf (by simp)
                · exact absurd (Option.some.inj hf) hy
              · rw [show handleTouchMove ⟨some y0, ip, pp, ir, st⟩ y
                    = ⟨some y0, ip, pp, ir, st⟩ from by
                  simp [handleTouchMove, hy, hir]
                  intro h1 h2
                  exact absurd ⟨sub_pos.mpr h1, h2⟩ hcond]
                exact hinv
    · cases ts0 with
      | none => exact hinv
      | some y0 =>
          by_cases hy : y0 = 0
          · subst hy
            rw [show handleTouchEnd ⟨some (0:ℚ), ip, pp, ir, st⟩
                = (⟨some 0, ip, pp, ir, st⟩, false) from by simp [handleTouchEnd]]
            exact hinv
          · rw [show handleTouchEnd ⟨some y0, ip, pp, ir, st⟩
                = (⟨none, false, 0, ir, st⟩, decide (60 < pp)) from by simp [handleTouchEnd, hy]]
            intro _
            exact ⟨rfl, rfl⟩
    · intro hyne
      by_cases hst : st = 0
      · rw [show handleTouchStart ⟨ts0, ip, pp, ir, st⟩ y
            = ⟨some y, ip, pp, ir, st⟩ from by simp [handleTouchStart, hst]]
        intro hf
        rcases hf with hf | hf
        · exact absurd hf (by simp)
        · exact absurd (Option.some.inj hf) hyne
      · rw [show handleTouchStart ⟨ts0, ip, pp, ir, st⟩ y
            = ⟨ts0, ip, pp, ir, st⟩ from by simp [handleTouchStart, hst]]
        exact hinv
    · rintro ⟨hip, hpp⟩
      have hip2 : ip = false := hip
      have hpp2 : pp = 0 := hpp
      subst hip2
      subst hpp2
      by_cases hst : st = 0
      · rw [show handleTouchStart ⟨ts0, false, 0, ir, st⟩ y
            = ⟨some y, false, 0, ir, st⟩ from by simp [handleTouchStart, hst]]
        intro _
        exact ⟨rfl, rfl⟩
      · rw [show handleTouchStart ⟨ts0, false, 0, ir, st⟩ y
            = ⟨ts0, false, 0, ir, st⟩ from by simp [handleTouchStart, hst]]
        intro _
        exact ⟨rfl, rfl⟩

/-- The pull gesture state used in the claim C7 witness: a touch recorded
at the non-zero clientY = 10 with the list at the top. -/
def c7Start : PullState :=
  { touchStart := some 10, isPulling := false, pullProgress := 0
    isRefreshing := false, scrollTop := 0 }

/-- Claim C7 (amended), witness at concrete inputs: a pull from clientY 10
to 210 (distance 200) yields progress min(80, 80) = 80 and releasing
triggers the refresh since 200 exceeds 150. -/
theorem pull_to_refresh_spec_witness :
    c7Start.touchStart = some 10 ∧ (10:ℚ) ≠ 0 ∧
    (handleTouchMove c7Start 210).pullProgress = 80 ∧
    (handleTouchEnd (handleTouchMove c7Start 210)).2 = true := by
  have h := pull_to_refresh_spec.1 c7Start 10 210 rfl (by norm_num) rfl rfl (by norm_num)
  refine ⟨rfl, by norm_num, ?_, h.2.2.1.mpr (by norm_num)⟩
  rw [h.1]
  norm_num [min_self]

/-- The room and foreign task of the claim C8 counterexample: the room was
created by u1, the task inside it by u2. -/
def c8CascadeRoom : Room := ⟨"r1", "Shared", "CD34", "u1", 1⟩

/-- The task of the claim C8 counterexample: created by u2 inside the room
of u1. -/
def c8CascadeTask : Task := ⟨"t9", "r1", "groceries", "u2", false, 4⟩

/-- Claim C8, counterexample: the claim concludes that a non-creator has
no code path removing another user task, but the room creator u1, who did
not create the task of u2 and whom the tasks DELETE policy would refuse,
deletes the room (rooms policy Creator can manage their rooms, reached via
Delete List and MainLayout.handleDeleteRoom) and the ON DELETE CASCADE on
tasks.room_id removes the task of u2 with it. -/
theorem delete_policy_counterexample :
    c8CascadeTask.created_by = "u2" ∧
    canDeleteRow "u1" c8CascadeTask = false ∧
    c8CascadeRoom.created_by = "u1" ∧
    (rlsDeleteRoom "u1" "r1" [c8CascadeRoom] [c8CascadeTask]).2 = [] := by
  decide

/-- Claim C8 (amended): the tasks DELETE policy admits a direct delete on
the tasks table exactly when the row id matches and the issuer is the
creator of the row, so a task of another creator survives every direct
tasks-table delete, and the TaskItem hover action group (Delete, and Edit)
renders only for the creator of the task; however deleting a room — which
its creator may do — cascades over tasks.room_id and removes every task of
the room, also those created by others, while a user who created none of
the rooms removes no task this way. -/
theorem delete_policy_amended (uid taskId : String) (t : Task) (db : List Task) :
    (t ∈ rlsDelete uid taskId db ↔ t ∈ db ∧ ¬(t.id = taskId ∧ uid = t.created_by)) ∧
    (t ∈ db → t.created_by ≠ uid → t ∈ rlsDelete uid taskId db) ∧
    (∀ e : Bool, showTaskActions t uid e = true → t.created_by = uid) ∧
    (∀ e : Bool, showEditAction t uid e = true → t.created_by = uid) ∧
    (∀ (roomId : String) (rooms : List Room) (r : Room),
      r ∈ rooms → r.id = roomId → uid = r.created_by → r.id = t.room_id →
      t ∉ (rlsDeleteRoom uid roomId rooms db).2) ∧
    (∀ (roomId : String) (rooms : List Room),
      (∀ r ∈ rooms, r.created_by ≠ uid) → (rlsDeleteRoom uid roomId rooms db).2 = db) := by
  have hmem : t ∈ rlsDelete uid taskId db ↔ t ∈ db ∧ ¬(t.id = taskId ∧ uid = t.created_by) := by
    rw [rlsDelete, List.mem_filter]
    constructor
    · rintro ⟨hdb, hb⟩
      refine ⟨hdb, ?_⟩
      rintro ⟨hc1, hc2⟩
      simp [canDeleteRow, hc1, hc2] at hb
    · rintro ⟨hdb, hnc⟩
      refine ⟨hdb, ?_⟩
      by_cases hc1 : t.id = taskId
      · by_cases hc2 : uid = t.created_by
        · exact absurd ⟨hc1, hc2⟩ hnc
        · simp [canDeleteRow, hc1, hc2]
      · simp [canDeleteRow, hc1]
  refine ⟨hmem, ?_, ?_, ?_, ?_, ?_⟩
  · intro hdb hne
    exact hmem.2 ⟨hdb, fun hc => hne hc.2.symm⟩
  · intro e he
    rw [showTaskActions, Bool.and_eq_true] at he
    exact beq_iff_eq.1 he.2
  · intro e he
    rw [showEditAction, Bool.and_eq_true, showTaskActions, Bool.and_eq_true] at he
    exact beq_iff_eq.1 he.1.2
  · intro roomId rooms r hr hrid hcreator hroom hmemT
    simp only [rlsDeleteRoom] at hmemT
    have h2 := List.mem_filter.1 hmemT
    have hany : (roomsRemoved uid roomId rooms).any (fun x => x.id == t.room_id) = true := by
      rw [List.any_eq_true]
      refine ⟨r, ?_, beq_iff_eq.2 hroom⟩
      rw [roomsRemoved, List.mem_filter]
      refine ⟨hr, ?_⟩
      simp [canDeleteRoomRow, hrid, hcreator]
    rw [hany] at h2
    simp at h2
  · intro roomId rooms hno
    have hrem : roomsRemoved uid roomId rooms = [] := by
      rw [roomsRemoved, List.filter_eq_nil_iff]
      intro r hr
      simp only [Bool.and_eq_true, beq_iff_eq, canDeleteRoomRow, not_and]
      intro _ hc
      exact hno r hr hc.symm
    have hproj : (rlsDeleteRoom uid roomId rooms db).2
        = db.filter (fun t =>
            !((roomsRemoved uid roomId rooms).any (fun r => r.id == t.room_id))) := rfl
    rw [hproj, hrem]
    simp

/-- The task and table used in the claim C8 witness: a task created by u8
in a table holding only it. -/
def c8Task : Task := ⟨"t8", "r8", "laundry", "u8", false, 2⟩

/-- Claim C8 (amended), witness at concrete inputs: a direct tasks-table
delete issued by the non-creator u9 leaves the task of u8 in the table,
and the action group does not render for u9. -/
theorem delete_policy_amended_witness :
    c8Task ∈ [c8Task] ∧ c8Task.created_by ≠ "u9" ∧
    c8Task ∈ rlsDelete "u9" "t8" [c8Task] ∧
    showTaskActions c8Task "u9" false = false :=
  ⟨by decide, by decide,
    (delete_policy_amended "u9" "t8" c8Task [c8Task]).2.1 (by decide) (by decide),
    by decide⟩

/-! ## Joining a room: helper lemmas and claims -/

lemma resolveByInvite_some {rooms : List Room} {input : String} {r : Room}
    (h : resolveByInvite rooms input = some r) :
    r ∈ rooms ∧ jsToLower r.invite_code = jsToLower (jsTrim input) := by
  rw [resolveByInvite] at h
  rcases hf : rooms.filter (fun x => jsToLower x.invite_code == jsToLower (jsTrim input))
    with _ | ⟨a, _ | ⟨b, tl⟩⟩ <;> rw [hf] at h
  · exact absurd h (by simp)
  · have ha : a ∈ rooms.filter
        (fun x => jsToLower x.invite_code == jsToLower (jsTrim input)) := by
      rw [hf]
      exact List.mem_singleton.2 rfl
    have h2 := List.mem_filter.1 ha
    have hr : a = r := by simpa using h
    subst hr
    exact ⟨h2.1, beq_iff_eq.1 h2.2⟩
  · exact absurd h (by simp)

lemma resolveByInvite_none {rooms : List Room} {input : String}
    (h : ∀ r ∈ rooms, jsToLower r.invite_code ≠ jsToLower (jsTrim input)) :
    resolveByInvite rooms input = none := by
  rw [resolveByInvite]
  have hf : rooms.filter (fun x => jsToLower x.invite_code == jsToLower (jsTrim input)) = [] := by
    rw [List.filter_eq_nil_iff]
    intro a ha
    simpa using h a ha
  rw [hf]

/-- The room used in the claim C2 counterexample: its invite code is AB12
and its id is r1. -/
def c2Room : Room := ⟨"r1", "Home", "AB12", "u1", 1⟩

/-- Claim C2, counterexample: the repository holds a second join handler,
RoomSetup.handleJoinRoom, which resolves the input against the room id
column instead of invite_code and inserts no membership row; a join
request through it carrying the invite code of an existing room fails,
although a room with that invite code exists. -/
theorem join_by_invite_counterexample :
    c2Room.invite_code = "AB12" ∧
    roomSetupJoinRoom [c2Room] "Alice" "AB12" =
      Except.error "Room not found or invalid Room ID." :=
  ⟨rfl, rfl⟩

/-- Claim C2 (amended): every join request submitted through the join form
of the application (MainLayout.handleJoinRoom) resolves the room by
invite_code matched case-insensitively against the trimmed input, adds the
user to the membership of the resolved room, selects that room, and fails
with the error Invalid Invite Code when no room has that invite code,
leaving the membership and selection unchanged; the RoomSetup component,
not referenced by the application, instead resolves by exact room id and
inserts no membership. -/
theorem join_by_invite_amended :
    (∀ (rooms : List Room) (members : MemberTable) (userId input : String)
      (sel : Option String) (e0 : String) (r : Room),
      jsTrim input ≠ "" →
      resolveByInvite rooms input = some r →
      r ∈ rooms ∧ jsToLower r.invite_code = jsToLower (jsTrim input) ∧
      (mainHandleJoinRoom rooms members userId input sel e0).selectedRoomId = some r.id ∧
      (r.id, userId) ∈ (mainHandleJoinRoom rooms members userId input sel e0).members ∧
      (mainHandleJoinRoom rooms members userId input sel e0).errorMsg = "") ∧
    (∀ (rooms : List Room) (members : MemberTable) (userId input : String)
      (sel : Option String) (e0 : String),
      jsTrim input ≠ "" →
      (∀ r ∈ rooms, jsToLower r.invite_code ≠ jsToLower (jsTrim input)) →
      (mainHandleJoinRoom rooms members userId input sel e0).errorMsg = "Invalid Invite Code." ∧
      (mainHandleJoinRoom rooms members userId input sel e0).members = members ∧
      (mainHandleJoinRoom rooms members userId input sel e0).selectedRoomId = sel) := by
  constructor
  · intro rooms members userId input sel e0 r hne hres
    obtain ⟨hmem, hcode⟩ := resolveByInvite_some hres
    have hmain : mainHandleJoinRoom rooms members userId input sel e0 =
        { members := (insertRoomUser members r.id userId).1, selectedRoomId := some r.id
          inputValue := "", showJoin := false, errorMsg := "" } := by
      rw [mainHandleJoinRoom, hres]
      simp [hne]
    refine ⟨hmem, hcode, ?_, ?_, ?_⟩ <;> rw [hmain]
    · rw [insertRoomUser]
      split
      · rename_i hdup
        exact hdup
      · exact List.mem_append.2 (Or.inr (List.mem_singleton.2 rfl))
  · intro rooms members userId input sel e0 hne hno
    have hres := resolveByInvite_none hno
    have hmain : mainHandleJoinRoom rooms members userId input sel e0 =
        { members := members, selectedRoomId := sel, inputValue := input
          showJoin := true, errorMsg := "Invalid Invite Code." } := by
      rw [mainHandleJoinRoom, hres]
      simp [hne]
    rw [hmain]
    exact ⟨rfl, rfl, rfl⟩

/-- Claim C2 (amended), witness at concrete inputs: the input ab12 with a
trailing space resolves the room whose invite code is AB12, the user is
added to its membership and the room is selected. -/
theorem join_by_invite_amended_witness :
    jsTrim "ab12 " ≠ "" ∧
    resolveByInvite [c2Room] "ab12 " = some c2Room ∧
    ("r1", "u2") ∈ (mainHandleJoinRoom [c2Room] [] "u2" "ab12 " none "").members ∧
    (mainHandleJoinRoom [c2Room] [] "u2" "ab12 " none "").selectedRoomId = some "r1" :=
  ⟨by decide, by decide,
    (join_by_invite_amended.1 [c2Room] [] "u2" "ab12 " none "" c2Room
      (by decide) (by decide)).2.2.2.1,
    (join_by_invite_amended.1 [c2Room] [] "u2" "ab12 " none "" c2Room
      (by decide) (by decide)).2.2.1⟩

/-- Claim C9: a user already a member of a room who submits its invite
code again succeeds exactly as on a first join: the duplicate-key conflict
of the room_users insert is ignored, the membership table is unchanged,
the room becomes the selected room, and the join form is cleared and
closed without error. -/
theorem join_idempotent (rooms : List Room) (members : MemberTable)
    (userId input : String) (sel : Option String) (e0 : String) (r : Room)
    (hne : jsTrim input ≠ "")
    (hres : resolveByInvite rooms input = some r)
    (hmem : (r.id, userId) ∈ members) :
    (mainHandleJoinRoom rooms members userId input sel e0).members = members ∧
    (mainHandleJoinRoom rooms members userId input sel e0).selectedRoomId = some r.id ∧
    (mainHandleJoinRoom rooms members userId input sel e0).errorMsg = "" ∧
    (mainHandleJoinRoom rooms members userId input sel e0).showJoin = false ∧
    (mainHandleJoinRoom rooms members userId input sel e0).inputValue = "" := by
  have hmain : mainHandleJoinRoom rooms members userId input sel e0 =
      { members := (insertRoomUser members r.id userId).1, selectedRoomId := some r.id
        inputValue := "", showJoin := false, errorMsg := "" } := by
    rw [mainHandleJoinRoom, hres]
    simp [hne]
  rw [hmain]
  refine ⟨?_, rfl, rfl, rfl, rfl⟩
  rw [insertRoomUser, if_pos hmem]

/-- Claim C9, witness at concrete inputs: u2 is already a member of the
room with invite code AB12 and joins again with input AB12. -/
theorem join_idempotent_witness :
    jsTrim "AB12" ≠ "" ∧
    resolveByInvite [c2Room] "AB12" = some c2Room ∧
    ("r1", "u2") ∈ ([("r1", "u2")] : MemberTable) ∧
    (mainHandleJoinRoom [c2Room] [("r1", "u2")] "u2" "AB12" none "").members
      = [("r1", "u2")] ∧
    (mainHandleJoinRoom [c2Room] [("r1", "u2")] "u2" "AB12" none "").selectedRoomId
      = some "r1" :=
  ⟨by decide, by decide, by decide,
    (join_idempotent [c2Room] [("r1", "u2")] "u2" "AB12" none "" c2Room
      (by decide) (by decide) (by decide)).1,
    (join_idempotent [c2Room] [("r1", "u2")] "u2" "AB12" none "" c2Room
      (by decide) (by decide) (by decide)).2.1⟩

/-! ## Theme toggling claims -/

/-- Claim C10, counterexample: from the initial state of a fresh user (the
theme variable defaults to dark, localStorage has no theme entry and the
data-theme attribute is unset), applying toggleTheme twice yields the
entry dark in localStorage, not the original absent entry, so the double
application does not restore the original values of all three locations. -/
theorem theme_toggle_counterexample :
    (toggleTheme (toggleTheme
      { theme := Theme.dark, storedTheme := none, dataThemeAttr := none })).storedTheme
      = some "dark" ∧
    ({ theme := Theme.dark, storedTheme := none, dataThemeAttr := none }
      : ThemeState).storedTheme = none := by
  decide

/-- Claim C10 (amended): a single application of toggleTheme makes the
theme variable, the localStorage entry and the data-theme attribute all
hold the other theme; and applying toggleTheme twice restores the full
original state provided the localStorage entry and the attribute already
held the current theme (which holds from the first toggle onwards and
whenever a saved theme was loaded, but not in the fresh state where both
are absent). -/
theorem theme_toggle_amended :
    (∀ s : ThemeState,
      (toggleTheme s).theme = otherTheme s.theme ∧
      (toggleTheme s).storedTheme = some (otherTheme s.theme).asString ∧
      (toggleTheme s).dataThemeAttr = some (otherTheme s.theme).asString) ∧
    (∀ s : ThemeState, s.storedTheme = some s.theme.asString →
      s.dataThemeAttr = some s.theme.asString →
      toggleTheme (toggleTheme s) = s) := by
  constructor
  · intro s
    cases h : s.theme <;> simp [toggleTheme, otherTheme, h, Theme.asString]
  · intro s h1 h2
    obtain ⟨th, st, da⟩ := s
    have h1b : st = some th.asString := h1
    have h2b : da = some th.asString := h2
    subst h1b
    subst h2b
    cases th <;> simp [toggleTheme, Theme.asString]

/-- Claim C10 (amended), witness at a concrete synchronized state. -/
theorem theme_toggle_amended_witness :
    ({ theme := Theme.dark, storedTheme := some "dark", dataThemeAttr := some "dark" }
      : ThemeState).storedTheme = some "dark" ∧
    toggleTheme (toggleTheme
      { theme := Theme.dark, storedTheme := some "dark", dataThemeAttr := some "dark" })
      = { theme := Theme.dark, storedTheme := some "dark", dataThemeAttr := some "dark" } :=
  ⟨rfl, theme_toggle_amended.2
    { theme := Theme.dark, storedTheme := some "dark", dataThemeAttr := some "dark" }
    rfl rfl⟩

end Todo

